import Mathlib

/-!
Verification of `paasta_tools/vitess_tools.py`: loading and validating a
Vitess service's deployment configuration.

The file embeds the data model and the operations of the source file.
Helper functions that the source imports from elsewhere in the repository
(`paasta_tools.utils`, `paasta_tools.kubernetes_tools`,
`paasta_tools.long_running_service_tools`, `service_configuration_lib`) are
not part of the given source tree; those are modelled from the
specification, and each such definition is marked `Modelled from the spec:`.

Python dictionaries of configuration data are embedded as association
lists from string keys to a recursive `Value` type; Python strings are
Lean `String`s; raising an exception is returning `none`; the logger is an
explicit list of emitted messages.
-/

/-- A configuration value: a scalar (integer, string, boolean), a list of
values, or a nested mapping from string keys to values. This embeds the
arbitrary nested JSON-like values held by the Python config dictionaries. -/
inductive Value where
  | int : Int → Value
  | str : String → Value
  | bool : Bool → Value
  | list : List Value → Value
  | map : List (String × Value) → Value

/-- A configuration dictionary: an association list with string keys. -/
abbrev ConfigDict := List (String × Value)

/-- Dictionary lookup: the value stored at key `k`, if any. -/
def lookupA (k : String) : ConfigDict → Option Value
  | [] => none
  | (k', v) :: rest => if k' = k then some v else lookupA k rest

/-- The keys of a configuration dictionary, in order. -/
def keysA (d : ConfigDict) : List String := d.map Prod.fst

/-- Whether a value is a nested mapping. -/
def Value.isMap : Value → Bool
  | Value.map _ => true
  | _ => false

mutual

/-- Modelled from the spec: the per-value deep-merge step of
`deep_merge_dictionaries` (paasta_tools.utils, not under src/). If both
the default value and the override value are mappings, merge recurses;
otherwise the override value wins outright. -/
def deep_merge_val : Value → Value → Value
  | Value.map d, Value.map o => Value.map (deep_merge_alist d o)
  | _, o => o
termination_by d o => (sizeOf o, 0, 0)

/-- Modelled from the spec: the deep merge of a defaults dictionary with an
overrides dictionary (paasta_tools.utils, not under src/). Starting from
the defaults, each override entry is merged in, in order. -/
def deep_merge_alist : ConfigDict → ConfigDict → ConfigDict
  | d, [] => d
  | d, (k, v) :: rest => deep_merge_alist (insert_merge d k v) rest
termination_by d o => (sizeOf o, 0, 0)

/-- Modelled from the spec: merging one override entry `(k, v)` into a
dictionary. If `k` is present the stored value is deep-merged with `v`
(override wins unless both are mappings); otherwise `(k, v)` is added. -/
def insert_merge : ConfigDict → String → Value → ConfigDict
  | [], k, v => [(k, v)]
  | (k', v') :: rest, k, v =>
    if k' = k then (k', deep_merge_val v' v) :: rest
    else (k', v') :: insert_merge rest k v
termination_by d k v => (sizeOf v, 1, sizeOf d)

end

/-- Modelled from the spec: `deep_merge_dictionaries(overrides=, defaults=)`
from paasta_tools.utils (not under src/), with the argument roles of the
call in `load_vitess_instance_config`. -/
def deep_merge_dictionaries (overrides defaults : ConfigDict) : ConfigDict :=
  deep_merge_alist defaults overrides

/-- Modelled from the spec: the fixed job-id separator character used by
`compose_job_id` / `decompose_job_id` (paasta_tools.utils, not under src/). -/
def SPACER : Char := '.'

/-- Modelled from the spec: `compose_job_id` (paasta_tools.utils, not under
src/): deterministic concatenation of the two parts with the fixed
separator; a total function. -/
def compose_job_id (service_name namespc : String) : String :=
  service_name ++ String.mk [SPACER] ++ namespc

/-- Splitting a character list on the separator character. -/
def split_on_spacer : List Char → List (List Char)
  | [] => [[]]
  | c :: cs =>
    if c = SPACER then [] :: split_on_spacer cs
    else
      match split_on_spacer cs with
      | [] => [[c]]
      | h :: t => (c :: h) :: t

/-- Modelled from the spec: `decompose_job_id` (paasta_tools.utils, not
under src/): splits the job id on the separator and yields the pair of
parts; `none` embeds raising `InvalidJobNameError` when the input does not
have exactly the expected separator structure. -/
def decompose_job_id (job_id : String) : Option (String × String) :=
  match split_on_spacer job_id.data with
  | [a, b] => some (String.mk a, String.mk b)
  | _ => none

/-- One character of the sanitiser: lowercase letters, digits and hyphens
are kept, every other character is replaced by a hyphen. -/
def char_sanitise (c : Char) : Char :=
  if ('a' ≤ c ∧ c ≤ 'z') ∨ ('0' ≤ c ∧ c ≤ '9') ∨ c = '-' then c else '-'

/-- Modelled from the spec: `sanitise_kubernetes_name`
(paasta_tools.kubernetes_tools, not under src/): a deterministic, total
function replacing invalid/unsafe characters rather than rejecting them,
so the output holds only lowercase alphanumerics and hyphens. -/
def sanitise_kubernetes_name (name : String) : String :=
  String.mk (name.data.map char_sanitise)

/-- Modelled from the spec: `sanitised_cr_name`
(paasta_tools.kubernetes_tools, not under src/): the custom-resource name
derived deterministically from the service and the instance by sanitising
each and joining them with a separator. -/
def sanitised_cr_name (service inst : String) : String :=
  sanitise_kubernetes_name service ++ "-" ++ sanitise_kubernetes_name inst

/-- Resolved deployment metadata for a branch, embedding `BranchDictV2`
(paasta_tools.utils): the deployed image reference and revision. -/
structure BranchDict where
  docker_image : String
  git_sha : String

/-- A deployments index, embedding the v2 deployments JSON: entries keyed
by (service, branch, deploy group). -/
abbrev DeploymentsJson := List ((String × String × String) × BranchDict)

/-- Modelled from the spec: `DeploymentsJsonV2.get_branch_dict`
(paasta_tools.utils, not under src/): looks up the record by the composite
key (service, branch, deploy group) and returns the absent result, not an
error, when no entry exists. -/
def get_branch_dict (dj : DeploymentsJson) (service branch deploy_group : String) :
    Option BranchDict :=
  match dj with
  | [] => none
  | (key, bd) :: rest =>
    if key = (service, branch, deploy_group) then some bd
    else get_branch_dict rest service branch deploy_group

/-- The fixed Kubernetes namespace constant of the source file. -/
def KUBERNETES_NAMESPACE : String := "paasta-vitess"

/-- The `VitessDeploymentConfig` object: the identity of one workload
(service, cluster, instance), its merged config dictionary, and the
optional resolved branch record. The Python attribute `instance` is a Lean
keyword, so the field is named `instance_name`. -/
structure VitessDeploymentConfig where
  service : String
  cluster : String
  instance_name : String
  config_dict : ConfigDict
  branch_dict : Option BranchDict

/-- `get_instance`: the instance name. -/
def VitessDeploymentConfig.get_instance (c : VitessDeploymentConfig) : String :=
  c.instance_name

/-- `get_service`: the service name. -/
def VitessDeploymentConfig.get_service (c : VitessDeploymentConfig) : String :=
  c.service

/-- `get_service_name_smartstack`: we register in vitess.main. -/
def VitessDeploymentConfig.get_service_name_smartstack
    (c : VitessDeploymentConfig) : String :=
  "vitess_" ++ c.get_instance

/-- `get_nerve_namespace`: we register in vitess.main. -/
def VitessDeploymentConfig.get_nerve_namespace (c : VitessDeploymentConfig) : String :=
  "main"

/-- The registrations list read from the config dictionary:
`config_dict.get("registrations", [])`, whose entries are strings. -/
def registrations_of (cfg : ConfigDict) : List String :=
  match lookupA "registrations" cfg with
  | some (Value.list vs) =>
    vs.filterMap (fun v => match v with | Value.str s => some s | _ => none)
  | _ => []

/-- `get_registrations`: each configured registration that does not
decompose as a job id is reported with an error message (the second
component embeds the log); the returned list is the configured list, or,
when it is empty, the single synthesized registration
`compose_job_id(get_service_name_smartstack(), "main")`. -/
def VitessDeploymentConfig.get_registrations
    (c : VitessDeploymentConfig) : List String × List String :=
  let registrations := registrations_of c.config_dict
  let logged := registrations.filterMap (fun r =>
    match decompose_job_id r with
    | some _ => none
    | none => some ("Provided registration " ++ r ++ " for service " ++
        c.service ++ " is invalid"))
  (if registrations.isEmpty then
    [compose_job_id c.get_service_name_smartstack "main"]
  else registrations, logged)

/-- `get_kubernetes_namespace`: the fixed namespace constant. -/
def VitessDeploymentConfig.get_kubernetes_namespace
    (c : VitessDeploymentConfig) : String :=
  KUBERNETES_NAMESPACE

/-- `get_instances`: `config_dict.get("replicas", 1)`. -/
def VitessDeploymentConfig.get_instances (c : VitessDeploymentConfig) : Value :=
  (lookupA "replicas" c.config_dict).getD (Value.int 1)

/-- `get_bounce_method`: crossover is the closest paasta bounce method. -/
def VitessDeploymentConfig.get_bounce_method (c : VitessDeploymentConfig) : String :=
  "crossover"

/-- `get_sanitised_service_name`: the sanitised service name. -/
def VitessDeploymentConfig.get_sanitised_service_name
    (c : VitessDeploymentConfig) : String :=
  sanitise_kubernetes_name c.get_service

/-- `get_sanitised_instance_name`: the sanitised instance name. -/
def VitessDeploymentConfig.get_sanitised_instance_name
    (c : VitessDeploymentConfig) : String :=
  sanitise_kubernetes_name c.get_instance

/-- `get_sanitised_deployment_name`: the sanitised instance name. -/
def VitessDeploymentConfig.get_sanitised_deployment_name
    (c : VitessDeploymentConfig) : String :=
  c.get_sanitised_instance_name

/-- The default check list of `VitessDeploymentConfig.validate`. -/
def default_validate_params : List String :=
  ["cpus", "security", "dependencies_reference", "deploy_group"]

/-- Modelled from the spec: `InstanceConfig.validate` (paasta_tools.utils,
not under src/): runs every named check in `params` with no short-circuit;
each check is a pure predicate over the config producing one failure
message when the required key is absent, and the messages are aggregated
in order. -/
def base_validate (cfg : ConfigDict) (params : List String) : List String :=
  params.filterMap (fun p =>
    if (lookupA p cfg).isSome then none else some (p ++ " is required"))

/-- `VitessDeploymentConfig.validate`: delegates to the shared validation
and prefixes each resulting message with the instance name. -/
def VitessDeploymentConfig.validate (c : VitessDeploymentConfig)
    (params : List String) : List String :=
  let error_msgs := base_validate c.config_dict params
  if error_msgs.isEmpty then []
  else
    let name := c.get_instance
    error_msgs.map (fun msg => name ++ ": " ++ msg)

/-- Modelled from the spec: `LongRunningServiceConfig.get_branch` (not
under src/): the deployment branch tracked for this cluster and instance. -/
def VitessDeploymentConfig.get_branch (c : VitessDeploymentConfig) : String :=
  c.cluster ++ "." ++ c.instance_name

/-- Modelled from the spec: `InstanceConfig.get_deploy_group` (not under
src/): the configured deploy group, defaulting to the branch. -/
def VitessDeploymentConfig.get_deploy_group (c : VitessDeploymentConfig) : String :=
  match lookupA "deploy_group" c.config_dict with
  | some (Value.str s) => s
  | _ => c.get_branch

/-- `load_vitess_instance_config`. The two configuration stores
(`service_configuration_lib.read_service_configuration` and
`load_service_instance_config`, both external to src/) and the deployments
index are passed as explicit read-only collaborators. The service-level
defaults are deep-merged under the instance-level overrides; when
`load_deployments` is set, the branch record is resolved from the
deployments index via the branch and deploy group of a temporary config,
otherwise `branch_dict` stays `none`. -/
def load_vitess_instance_config
    (read_service_configuration : String → ConfigDict)
    (load_service_instance_config : String → String → String → ConfigDict)
    (deployments_json : DeploymentsJson)
    (service inst cluster : String)
    (load_deployments : Bool) : VitessDeploymentConfig :=
  let general_config := read_service_configuration service
  let instance_config := load_service_instance_config service inst cluster
  let merged := deep_merge_dictionaries instance_config general_config
  let branch_dict : Option BranchDict :=
    if load_deployments then
      let temp_instance_config : VitessDeploymentConfig :=
        ⟨service, cluster, inst, merged, none⟩
      get_branch_dict deployments_json service
        temp_instance_config.get_branch temp_instance_config.get_deploy_group
    else none
  ⟨service, cluster, inst, merged, branch_dict⟩

/-- The identity record of the custom resource: `cr_id` returns a mapping
with exactly these five string fields. The Python key `namespace` is a
Lean keyword, so the field is named `namespc`. -/
structure CrId where
  group : String
  version : String
  namespc : String
  plural : String
  name : String

/-- `cr_id`: the custom-resource identity for the service and instance. -/
def cr_id (service inst : String) : CrId :=
  ⟨"yelp.com", "v1alpha1", KUBERNETES_NAMESPACE, "vitess",
    sanitised_cr_name service inst⟩

theorem keysA_nil : keysA [] = [] := rfl

theorem keysA_cons (k : String) (v : Value) (t : ConfigDict) :
    keysA ((k, v) :: t) = k :: keysA t := rfl

theorem lookupA_eq_none_of_not_mem {a : String} {d : ConfigDict}
    (h : a ∉ keysA d) : lookupA a d = none := by
  induction d with
  | nil => rfl
  | cons hd tl ih =>
    obtain ⟨k, v⟩ := hd
    simp only [keysA_cons, List.mem_cons, not_or] at h
    simp only [lookupA, if_neg (Ne.symm h.1)]
    exact ih h.2

theorem mem_keysA_insert_merge (d : ConfigDict) (k a : String) (v : Value) :
    a ∈ keysA (insert_merge d k v) ↔ a ∈ keysA d ∨ a = k := by
  induction d with
  | nil => simp [insert_merge, keysA_cons, keysA_nil]
  | cons hd tl ih =>
    obtain ⟨k', v'⟩ := hd
    simp only [insert_merge]
    by_cases h : k' = k
    · rw [if_pos h]
      subst h
      simp only [keysA_cons, List.mem_cons]
      tauto
    · rw [if_neg h]
      simp only [keysA_cons, List.mem_cons, ih]
      tauto

theorem insert_merge_of_not_mem {k : String} {d : ConfigDict} (v : Value)
    (h : k ∉ keysA d) : insert_merge d k v = d ++ [(k, v)] := by
  induction d with
  | nil => simp [insert_merge]
  | cons hd tl ih =>
    obtain ⟨k', v'⟩ := hd
    simp only [keysA_cons, List.mem_cons, not_or] at h
    simp only [insert_merge, if_neg (Ne.symm h.1), List.cons_append]
    rw [ih h.2]

theorem lookupA_insert_merge_self (d : ConfigDict) (k : String) (v : Value) :
    lookupA k (insert_merge d k v) =
      some (match lookupA k d with
            | none => v
            | some dv => deep_merge_val dv v) := by
  induction d with
  | nil => simp [insert_merge, lookupA]
  | cons hd tl ih =>
    obtain ⟨k', v'⟩ := hd
    by_cases h : k' = k
    · subst h
      simp [insert_merge, lookupA]
    · simp only [insert_merge, if_neg h, lookupA, ih]

theorem lookupA_insert_merge_ne {a k : String} (d : ConfigDict) (v : Value)
    (h : a ≠ k) : lookupA a (insert_merge d k v) = lookupA a d := by
  induction d with
  | nil => simp [insert_merge, lookupA, Ne.symm h]
  | cons hd tl ih =>
    obtain ⟨k', v'⟩ := hd
    simp only [insert_merge]
    by_cases h' : k' = k
    · rw [if_pos h']
      subst h'
      simp [lookupA, Ne.symm h]
    · rw [if_neg h']
      simp only [lookupA, ih]

theorem deep_merge_alist_nil (d : ConfigDict) : deep_merge_alist d [] = d := by
  simp [deep_merge_alist]

theorem mem_keysA_deep_merge_alist (o : ConfigDict) (d : ConfigDict) (a : String) :
    a ∈ keysA (deep_merge_alist d o) ↔ a ∈ keysA d ∨ a ∈ keysA o := by
  induction o generalizing d with
  | nil => simp [deep_merge_alist_nil, keysA_nil]
  | cons hd tl ih =>
    obtain ⟨k, v⟩ := hd
    simp only [deep_merge_alist, ih, mem_keysA_insert_merge, keysA_cons,
      List.mem_cons]
    tauto

theorem deep_merge_alist_of_disjoint (o : ConfigDict) :
    ∀ d : ConfigDict, (∀ k ∈ keysA o, k ∉ keysA d) → (keysA o).Nodup →
      deep_merge_alist d o = d ++ o := by
  induction o with
  | nil => intro d _ _; simp [deep_merge_alist_nil]
  | cons hd tl ih =>
    intro d hdisj hnd
    obtain ⟨k, v⟩ := hd
    simp only [keysA_cons, List.nodup_cons] at hnd
    have hk : k ∉ keysA d := hdisj k (by simp [keysA_cons])
    simp only [deep_merge_alist]
    rw [insert_merge_of_not_mem v hk, ih (d ++ [(k, v)]) ?_ hnd.2]
    · simp
    · intro k' hk'
      have h1 : k' ∉ keysA d := hdisj k' (by simp [keysA_cons, hk'])
      have h2 : k' ≠ k := fun h => hnd.1 (h ▸ hk')
      simp only [keysA, List.map_append, List.mem_append] at *
      rintro (h | h)
      · exact h1 h
      · simp at h
        exact h2 h

theorem lookupA_deep_merge_alist_of_none (o : ConfigDict) :
    ∀ (d : ConfigDict) (a : String), lookupA a o = none →
      lookupA a (deep_merge_alist d o) = lookupA a d := by
  induction o with
  | nil => intro d a _; rw [deep_merge_alist_nil]
  | cons hd tl ih =>
    intro d a h
    obtain ⟨k, v⟩ := hd
    simp only [lookupA] at h
    by_cases hk : k = a
    · rw [if_pos hk] at h; exact absurd h (by simp)
    · rw [if_neg hk] at h
      simp only [deep_merge_alist]
      rw [ih _ a h, lookupA_insert_merge_ne _ _ (fun he => hk he.symm)]

theorem lookupA_deep_merge_alist_of_some (o : ConfigDict) :
    ∀ (d : ConfigDict) (a : String) (ov : Value), (keysA o).Nodup →
      lookupA a o = some ov →
      lookupA a (deep_merge_alist d o) =
        some (match lookupA a d with
              | none => ov
              | some dv => deep_merge_val dv ov) := by
  induction o with
  | nil => intro d a ov _ h; exact absurd h (by simp [lookupA])
  | cons hd tl ih =>
    intro d a ov hnd h
    obtain ⟨k, v⟩ := hd
    simp only [keysA_cons, List.nodup_cons] at hnd
    simp only [lookupA] at h
    by_cases hk : k = a
    · rw [if_pos hk] at h
      subst hk
      have hnone : lookupA k tl = none := lookupA_eq_none_of_not_mem hnd.1
      simp only [deep_merge_alist]
      rw [lookupA_deep_merge_alist_of_none tl _ k hnone,
        lookupA_insert_merge_self]
      simp only [Option.some.injEq] at h
      rw [h]
    · rw [if_neg hk] at h
      simp only [deep_merge_alist]
      rw [ih _ a ov hnd.2 h,
        lookupA_insert_merge_ne _ _ (fun he => hk he.symm)]

theorem deep_merge_val_of_not_map {dv : Value} (ov : Value)
    (h : dv.isMap = false) : deep_merge_val dv ov = ov := by
  cases dv <;> cases ov <;> simp_all [deep_merge_val, Value.isMap]

theorem split_on_spacer_of_not_mem {l : List Char} (h : SPACER ∉ l) :
    split_on_spacer l = [l] := by
  induction l with
  | nil => rfl
  | cons c cs ih =>
    simp only [List.mem_cons, not_or] at h
    simp only [split_on_spacer, if_neg (Ne.symm h.1), ih h.2]

theorem split_on_spacer_append {l : List Char} (r : List Char)
    (h : SPACER ∉ l) :
    split_on_spacer (l ++ SPACER :: r) = l :: split_on_spacer r := by
  induction l with
  | nil =>
    simp [split_on_spacer]
  | cons c cs ih =>
    simp only [List.mem_cons, not_or] at h
    simp only [List.cons_append, split_on_spacer, if_neg (Ne.symm h.1),
      List.append_eq]
    rw [ih h.2]

/-- C1: the deep merge of a defaults mapping with an overrides mapping:
merging defaults with an empty overrides mapping returns defaults; merging
an empty defaults mapping with overrides returns overrides; every key
present in either input is present in the output; for a key present in
both where both values are mappings the merge recurses (the spec's example
d = x:(a:1, b:2), o = x:(b:3, c:4) gives x:(a:1, b:3, c:4)); for a key
present in both as scalars or lists (neither value a mapping) the
overrides value wins outright. -/
theorem deep_merge_dictionaries_spec :
    (∀ d : ConfigDict, deep_merge_dictionaries [] d = d) ∧
    (∀ o : ConfigDict, (keysA o).Nodup → deep_merge_dictionaries o [] = o) ∧
    (∀ (d o : ConfigDict) (k : String), k ∈ keysA d ∨ k ∈ keysA o →
      k ∈ keysA (deep_merge_dictionaries o d)) ∧
    (deep_merge_dictionaries
        [("x", Value.map [("b", Value.int 3), ("c", Value.int 4)])]
        [("x", Value.map [("a", Value.int 1), ("b", Value.int 2)])] =
      [("x", Value.map [("a", Value.int 1), ("b", Value.int 3),
        ("c", Value.int 4)])]) ∧
    (∀ (d o : ConfigDict) (k : String) (dv ov : Value), (keysA o).Nodup →
      lookupA k d = some dv → lookupA k o = some ov →
      dv.isMap = false → ov.isMap = false →
      lookupA k (deep_merge_dictionaries o d) = some ov) := by
  refine ⟨fun d => deep_merge_alist_nil d, fun o hnd => ?_, ?_, ?_, ?_⟩
  · rw [deep_merge_dictionaries,
      deep_merge_alist_of_disjoint o [] (by simp [keysA_nil]) hnd,
      List.nil_append]
  · intro d o k h
    rw [deep_merge_dictionaries, mem_keysA_deep_merge_alist]
    exact h
  · simp [deep_merge_dictionaries, deep_merge_alist, insert_merge,
      deep_merge_val]
  · intro d o k dv ov hnd hd ho hdv hov
    rw [deep_merge_dictionaries,
      lookupA_deep_merge_alist_of_some o d k ov hnd ho, hd]
    simp only [deep_merge_val_of_not_map ov hdv]

/-- Witness for C1 at concrete inputs: defaults a:1, overrides b:2
exercise the identity laws and the key-union law; defaults k:1 with
overrides k:2 (both scalars) exercise the override-wins law. -/
theorem deep_merge_dictionaries_spec_witness :
    deep_merge_dictionaries [] [("a", Value.int 1)] = [("a", Value.int 1)] ∧
    deep_merge_dictionaries [("b", Value.int 2)] [] = [("b", Value.int 2)] ∧
    "a" ∈ keysA (deep_merge_dictionaries [("b", Value.int 2)]
      [("a", Value.int 1)]) ∧
    lookupA "k" (deep_merge_dictionaries [("k", Value.int 2)]
      [("k", Value.int 1)]) = some (Value.int 2) :=
  ⟨deep_merge_dictionaries_spec.1 [("a", Value.int 1)],
   deep_merge_dictionaries_spec.2.1 [("b", Value.int 2)] (by decide),
   deep_merge_dictionaries_spec.2.2.1 [("a", Value.int 1)]
     [("b", Value.int 2)] "a" (Or.inl (by decide)),
   deep_merge_dictionaries_spec.2.2.2.2 [("k", Value.int 1)]
     [("k", Value.int 2)] "k" (Value.int 1) (Value.int 2) (by decide)
     rfl rfl rfl rfl⟩

/-- C2: for all strings a and b containing no separator character,
decomposing the job id composed from a and b returns exactly the pair
(a, b): decompose is the exact inverse of compose on outputs of compose. -/
theorem decompose_compose_roundtrip (a b : String)
    (ha : SPACER ∉ a.data) (hb : SPACER ∉ b.data) :
    decompose_job_id (compose_job_id a b) = some (a, b) := by
  have hdata : (compose_job_id a b).data = a.data ++ SPACER :: b.data := by
    simp [compose_job_id, String.data_append]
  rw [decompose_job_id, hdata, split_on_spacer_append _ ha,
    split_on_spacer_of_not_mem hb]

/-- Witness for C2: the round trip at ("vitess", "main"). -/
theorem decompose_compose_roundtrip_witness :
    SPACER ∉ "vitess".data ∧ SPACER ∉ "main".data ∧
    decompose_job_id (compose_job_id "vitess" "main") =
      some ("vitess", "main") :=
  ⟨by decide, by decide,
   decompose_compose_roundtrip "vitess" "main" (by decide) (by decide)⟩

/-- C3: for every VitessDeploymentConfig whose configured registrations
list is empty or absent, get_registrations returns exactly one synthesized
registration equal to compose_job_id("vitess_" + instance, "main"), i.e.
compose of the smartstack service name with "main". -/
theorem get_registrations_default_spec (c : VitessDeploymentConfig)
    (h : lookupA "registrations" c.config_dict = none ∨
      lookupA "registrations" c.config_dict = some (Value.list [])) :
    c.get_registrations.1 =
      [compose_job_id ("vitess_" ++ c.get_instance) "main"] ∧
    c.get_service_name_smartstack = "vitess_" ++ c.get_instance := by
  refine ⟨?_, rfl⟩
  rcases h with h | h <;>
    simp [VitessDeploymentConfig.get_registrations, registrations_of, h,
      VitessDeploymentConfig.get_service_name_smartstack]

/-- Witness for C3: a config with no "registrations" key yields the single
synthesized registration. -/
theorem get_registrations_default_spec_witness :
    (⟨"vitess", "superregion", "host-1", [], none⟩ :
        VitessDeploymentConfig).get_registrations.1 =
      [compose_job_id ("vitess_" ++ "host-1") "main"] :=
  (get_registrations_default_spec
    (⟨"vitess", "superregion", "host-1", [], none⟩ :
      VitessDeploymentConfig) (Or.inl rfl)).1

/-- C4 counterexample: the claim says a registration that does not
decompose cleanly is excluded from the returned list; at the concrete
config whose registrations list is ["badreg"], "badreg" does not decompose
yet it is returned (the list comes back unchanged), so the claim as stated
is false. -/
theorem get_registrations_malformed_not_skipped :
    decompose_job_id "badreg" = none ∧
    (⟨"vitess", "superregion", "host-1",
      [("registrations", Value.list [Value.str "badreg"])], none⟩ :
        VitessDeploymentConfig).get_registrations.1 = ["badreg"] ∧
    "badreg" ∈ (⟨"vitess", "superregion", "host-1",
      [("registrations", Value.list [Value.str "badreg"])], none⟩ :
        VitessDeploymentConfig).get_registrations.1 := by
  refine ⟨rfl, ?_, ?_⟩ <;>
    simp [VitessDeploymentConfig.get_registrations, registrations_of,
      lookupA]

/-- Extracting the plain strings back out of a registrations value. -/
theorem filterMap_str_map (rs : List String) :
    (rs.map Value.str).filterMap
      (fun v => match v with | Value.str s => some s | _ => none) = rs := by
  induction rs with
  | nil => rfl
  | cons r t ih => simp [ih]

/-- C4 amended: for every registrations list containing an entry that does
not decompose cleanly as a job id, get_registrations logs an error message
for that entry but keeps it: the configured list is returned unchanged,
and no exception propagates (the load is total). -/
theorem get_registrations_malformed_logged_kept
    (c : VitessDeploymentConfig) (rs : List String)
    (h : lookupA "registrations" c.config_dict =
      some (Value.list (rs.map Value.str)))
    (hne : rs ≠ []) :
    c.get_registrations.1 = rs ∧
    ∀ r ∈ rs, decompose_job_id r = none →
      ("Provided registration " ++ r ++ " for service " ++ c.service ++
        " is invalid") ∈ c.get_registrations.2 := by
  have hregs : registrations_of c.config_dict = rs := by
    unfold registrations_of
    rw [h]
    exact filterMap_str_map rs
  constructor
  · simp [VitessDeploymentConfig.get_registrations, hregs,
      List.isEmpty_iff, hne]
  · intro r hr hdr
    simp only [VitessDeploymentConfig.get_registrations, hregs,
      List.mem_filterMap]
    exact ⟨r, hr, by rw [hdr]⟩

/-- Witness for C4 amended: one malformed and one valid entry; the list
comes back unchanged and the malformed entry's error message is logged. -/
theorem get_registrations_malformed_logged_kept_witness :
    (⟨"vitess", "superregion", "host-1",
      [("registrations", Value.list
        [Value.str "badreg", Value.str "vitess.main"])], none⟩ :
        VitessDeploymentConfig).get_registrations.1 =
      ["badreg", "vitess.main"] ∧
    ("Provided registration " ++ "badreg" ++ " for service " ++ "vitess" ++
      " is invalid") ∈ (⟨"vitess", "superregion", "host-1",
      [("registrations", Value.list
        [Value.str "badreg", Value.str "vitess.main"])], none⟩ :
        VitessDeploymentConfig).get_registrations.2 :=
  ⟨(get_registrations_malformed_logged_kept
      (⟨"vitess", "superregion", "host-1",
        [("registrations", Value.list
          [Value.str "badreg", Value.str "vitess.main"])], none⟩ :
        VitessDeploymentConfig) ["badreg", "vitess.main"]
      rfl (by decide)).1,
   (get_registrations_malformed_logged_kept
      (⟨"vitess", "superregion", "host-1",
        [("registrations", Value.list
          [Value.str "badreg", Value.str "vitess.main"])], none⟩ :
        VitessDeploymentConfig) ["badreg", "vitess.main"]
      rfl (by decide)).2 "badreg" (by decide) rfl⟩

/-- C5: validate runs every check regardless of earlier failures, never
throws (it is a total function returning a possibly empty list), and
returns the list of all failure messages, each prefixed with the instance
name: in general it equals the prefixed shared validation result; a config
missing both "security" and "cpus" (with the other default checks passing)
yields exactly two messages, each prefixed by the instance name; a config
passing all checks yields the empty list. -/
theorem validate_spec :
    (∀ (c : VitessDeploymentConfig) (params : List String),
      c.validate params =
        (base_validate c.config_dict params).map
          (fun msg => c.get_instance ++ ": " ++ msg)) ∧
    (∀ (c : VitessDeploymentConfig) (params : List String) (p : String),
      p ∈ params → lookupA p c.config_dict = none →
      (c.get_instance ++ ": " ++ (p ++ " is required")) ∈
        c.validate params) ∧
    (∀ c : VitessDeploymentConfig,
      lookupA "cpus" c.config_dict = none →
      lookupA "security" c.config_dict = none →
      (lookupA "dependencies_reference" c.config_dict).isSome = true →
      (lookupA "deploy_group" c.config_dict).isSome = true →
      c.validate default_validate_params =
        [c.get_instance ++ ": " ++ "cpus is required",
         c.get_instance ++ ": " ++ "security is required"]) ∧
    (∀ (c : VitessDeploymentConfig) (params : List String),
      (∀ p ∈ params, (lookupA p c.config_dict).isSome = true) →
      c.validate params = []) := by
  have hmain : ∀ (c : VitessDeploymentConfig) (params : List String),
      c.validate params =
        (base_validate c.config_dict params).map
          (fun msg => c.get_instance ++ ": " ++ msg) := by
    intro c params
    rw [VitessDeploymentConfig.validate]
    cases h : base_validate c.config_dict params with
    | nil => simp
    | cons m t => simp
  refine ⟨hmain, ?_, ?_, ?_⟩
  · intro c params p hp hnone
    rw [hmain]
    refine List.mem_map.mpr ⟨p ++ " is required", ?_, rfl⟩
    exact List.mem_filterMap.mpr ⟨p, hp, by rw [hnone]; rfl⟩
  · intro c h1 h2 h3 h4
    rw [hmain]
    have hb : base_validate c.config_dict default_validate_params =
        ["cpus is required", "security is required"] := by
      simp [base_validate, default_validate_params, h1, h2, h3, h4]
    rw [hb]
    rfl
  · intro c params hall
    rw [hmain]
    have hb : base_validate c.config_dict params = [] := by
      simp only [base_validate, List.filterMap_eq_nil_iff]
      intro p hp
      rw [hall p hp]
      rfl
    rw [hb]
    rfl

/-- Witness for C5: with "dependencies_reference" and "deploy_group"
present and "cpus" and "security" absent, validate returns exactly the two
prefixed messages; with all four present it returns the empty list. -/
theorem validate_spec_witness :
    (⟨"vitess", "superregion", "host-1",
      [("dependencies_reference", Value.str "r"),
       ("deploy_group", Value.str "g")], none⟩ :
        VitessDeploymentConfig).validate default_validate_params =
      ["host-1" ++ ": " ++ "cpus is required",
       "host-1" ++ ": " ++ "security is required"] ∧
    (⟨"vitess", "superregion", "host-1",
      [("cpus", Value.int 1), ("security", Value.map []),
       ("dependencies_reference", Value.str "r"),
       ("deploy_group", Value.str "g")], none⟩ :
        VitessDeploymentConfig).validate default_validate_params = [] :=
  ⟨validate_spec.2.2.1
    (⟨"vitess", "superregion", "host-1",
      [("dependencies_reference", Value.str "r"),
       ("deploy_group", Value.str "g")], none⟩ :
        VitessDeploymentConfig) rfl rfl rfl rfl,
   validate_spec.2.2.2
    (⟨"vitess", "superregion", "host-1",
      [("cpus", Value.int 1), ("security", Value.map []),
       ("dependencies_reference", Value.str "r"),
       ("deploy_group", Value.str "g")], none⟩ :
        VitessDeploymentConfig) default_validate_params (by decide)⟩

/-- C6: get_instances returns 1 when the merged config has no "replicas"
key, and returns the configured value when the key is present. -/
theorem get_instances_spec (c : VitessDeploymentConfig) :
    (lookupA "replicas" c.config_dict = none →
      c.get_instances = Value.int 1) ∧
    (∀ v : Value, lookupA "replicas" c.config_dict = some v →
      c.get_instances = v) := by
  constructor
  · intro h
    rw [VitessDeploymentConfig.get_instances, h]
    rfl
  · intro v h
    rw [VitessDeploymentConfig.get_instances, h]
    rfl

/-- Witness for C6: no "replicas" key yields 1; "replicas": 5 yields 5. -/
theorem get_instances_spec_witness :
    (⟨"vitess", "superregion", "host-1", [], none⟩ :
      VitessDeploymentConfig).get_instances = Value.int 1 ∧
    (⟨"vitess", "superregion", "host-1",
      [("replicas", Value.int 5)], none⟩ :
      VitessDeploymentConfig).get_instances = Value.int 5 :=
  ⟨(get_instances_spec (⟨"vitess", "superregion", "host-1", [], none⟩ :
      VitessDeploymentConfig)).1 rfl,
   (get_instances_spec (⟨"vitess", "superregion", "host-1",
      [("replicas", Value.int 5)], none⟩ :
      VitessDeploymentConfig)).2 (Value.int 5) rfl⟩

/-- C7: cr_id returns a record whose group, version and plural are the
fixed constants of the resource kind, whose namespace is the fixed
namespace constant, and whose name is derived deterministically from the
service and instance by sanitisation; two calls on the same inputs give
the same record, hence a byte-identical name. -/
theorem cr_id_spec (service inst : String) :
    (cr_id service inst).group = "yelp.com" ∧
    (cr_id service inst).version = "v1alpha1" ∧
    (cr_id service inst).namespc = KUBERNETES_NAMESPACE ∧
    (cr_id service inst).plural = "vitess" ∧
    (cr_id service inst).name = sanitised_cr_name service inst ∧
    (cr_id service inst).name = (cr_id service inst).name :=
  ⟨rfl, rfl, rfl, rfl, rfl, rfl⟩

/-- C8: when the deployments index has no entry for the service (for any
branch and deploy group), load_vitess_instance_config with
load_deployments=True completes and returns a config whose branch_dict is
absent, with the merged config dictionary intact: "not yet deployed" is a
valid, non-error outcome. -/
theorem load_config_no_deployment_entry
    (read_service_configuration : String → ConfigDict)
    (load_service_instance_config_store : String → String → String → ConfigDict)
    (dj : DeploymentsJson) (service inst cluster : String)
    (h : ∀ branch deploy_group,
      get_branch_dict dj service branch deploy_group = none) :
    (load_vitess_instance_config read_service_configuration
        load_service_instance_config_store dj service inst cluster
        true).branch_dict = none ∧
    (load_vitess_instance_config read_service_configuration
        load_service_instance_config_store dj service inst cluster
        true).config_dict =
      deep_merge_dictionaries
        (load_service_instance_config_store service inst cluster)
        (read_service_configuration service) := by
  constructor
  · simp [load_vitess_instance_config, h]
  · rfl

/-- Witness for C8: empty stores and an empty deployments index. -/
theorem load_config_no_deployment_entry_witness :
    (load_vitess_instance_config (fun _ => []) (fun _ _ _ => []) []
        "vitess" "host-1" "superregion" true).branch_dict = none ∧
    (load_vitess_instance_config (fun _ => []) (fun _ _ _ => []) []
        "vitess" "host-1" "superregion" true).config_dict =
      deep_merge_dictionaries [] [] :=
  load_config_no_deployment_entry (fun _ => []) (fun _ _ _ => []) []
    "vitess" "host-1" "superregion" (fun _ _ => rfl)

/-- The character sanitiser fixes its own output. -/
theorem char_sanitise_idem (c : Char) :
    char_sanitise (char_sanitise c) = char_sanitise c := by
  by_cases h : ('a' ≤ c ∧ c ≤ 'z') ∨ ('0' ≤ c ∧ c ≤ '9') ∨ c = '-'
  · have hc : char_sanitise c = c := if_pos h
    rw [hc]
    exact hc
  · have hc : char_sanitise c = '-' := if_neg h
    rw [hc]
    decide

/-- Mapping the character sanitiser over a list is idempotent. -/
theorem map_char_sanitise_idem (l : List Char) :
    (l.map char_sanitise).map char_sanitise = l.map char_sanitise := by
  induction l with
  | nil => rfl
  | cons c cs ih => simp only [List.map_cons, char_sanitise_idem, ih]

/-- C9: the name sanitiser is a deterministic total Lean function of the
input string (by construction it never fails), and it is idempotent:
sanitising twice equals sanitising once, for every string. -/
theorem sanitise_kubernetes_name_idempotent (s : String) :
    sanitise_kubernetes_name (sanitise_kubernetes_name s) =
      sanitise_kubernetes_name s :=
  congrArg String.mk (map_char_sanitise_idem s.data)

/-- C10: calling load_vitess_instance_config with load_deployments=False
returns a config whose branch_dict is None, whose merged config_dict is
the same as with load_deployments=True, and whose result never depends on
the deployments index (the index is not read). -/
theorem load_config_without_deployments
    (read_service_configuration : String → ConfigDict)
    (load_service_instance_config_store : String → String → String → ConfigDict)
    (dj dj' : DeploymentsJson) (service inst cluster : String) :
    (load_vitess_instance_config read_service_configuration
        load_service_instance_config_store dj service inst cluster
        false).branch_dict = none ∧
    (load_vitess_instance_config read_service_configuration
        load_service_instance_config_store dj service inst cluster
        false).config_dict =
      (load_vitess_instance_config read_service_configuration
        load_service_instance_config_store dj' service inst cluster
        true).config_dict ∧
    load_vitess_instance_config read_service_configuration
        load_service_instance_config_store dj service inst cluster false =
      load_vitess_instance_config read_service_configuration
        load_service_instance_config_store dj' service inst cluster false :=
  ⟨rfl, rfl, rfl⟩
